import Mathlib

/-!
Verification development for the NovelAI Auto-Memory Manager script
(`scripts/auto-memory-manager/auto-memory-manager.ts`).

The script is embedded shallowly:
* pure string/array manipulation is translated function by function;
* the external services (text-understanding call, tokenizer, id/clock
  sources) are supplied as explicit oracle parameters;
* `JSON.parse` is modelled by a strict fuel-based JSON parser;
* the stateful orchestrator (`processNewContent`, `forceRefresh`) is
  modelled as a function from the persisted storage blob, the document
  (ordered `(sectionId, text)` pairs) and the oracles to the persisted
  storage after the cycle plus the published artifact;
* the module-level `isProcessing` flag and the interleaving of
  invocations at `await` boundaries are modelled by small labelled
  transition systems.
-/

-- ===========================================================================
-- Basic character/list utilities shared by the embedding
-- ===========================================================================

/-- Whitespace class used by `String.prototype.trim` and the `\s` regex
class, restricted to the ASCII whitespace that actually occurs in the
script's data. -/
def jsIsWs (c : Char) : Bool :=
  c = ' ' || c = '\t' || c = '\n' || c = '\r'

/-- `s.trim()` on a character list: strip leading and trailing whitespace. -/
def jsTrim (cs : List Char) : List Char :=
  ((cs.dropWhile jsIsWs).reverse.dropWhile jsIsWs).reverse

/-- Number of occurrences of a character, i.e. `(s.match(/c/g) || []).length`. -/
def countCh (cs : List Char) (c : Char) : Nat :=
  (cs.filter (fun x => x = c)).length

/-- `content.split('\n')` on a character list. -/
def splitLinesAux : List Char → List Char → List (List Char)
  | [], acc => [acc.reverse]
  | c :: rest, acc =>
      if c = '\n' then acc.reverse :: splitLinesAux rest []
      else splitLinesAux rest (c :: acc)

def splitLines (cs : List Char) : List (List Char) :=
  splitLinesAux cs []

/-- `Array.prototype.map` with the element index (second callback argument). -/
def mapIdxAux (f : Nat → α → β) (i : Nat) : List α → List β
  | [] => []
  | a :: as => f i a :: mapIdxAux f (i + 1) as

def mapWithIdx (f : Nat → α → β) (l : List α) : List β :=
  mapIdxAux f 0 l

/-- `str.slice(i, j)` / `fullText.slice(i, i + CHUNK_SIZE)` on char lists. -/
def jsSlice (cs : List Char) (i j : Nat) : List Char :=
  (cs.take j).drop i

-- ===========================================================================
-- JSON values and a strict `JSON.parse` model
-- ===========================================================================

/-- Parsed JSON values.  Numbers are kept as their source lexeme: no claim
observes a numeric value, only shapes and string/array/object contents. -/
inductive JsonValue where
  | jnull
  | jbool (b : Bool)
  | jnum (lit : String)
  | jstr (s : String)
  | jarr (elems : List JsonValue)
  | jobj (fields : List (String × JsonValue))
deriving Repr

/-- JSON whitespace (`ws` in RFC 8259). -/
def jsonWs (c : Char) : Bool :=
  c = ' ' || c = '\t' || c = '\n' || c = '\r'

def isHexDigit (c : Char) : Bool :=
  ('0' ≤ c && c ≤ '9') || ('a' ≤ c && c ≤ 'f') || ('A' ≤ c && c ≤ 'F')

def hexVal (c : Char) : Nat :=
  if '0' ≤ c && c ≤ '9' then c.toNat - '0'.toNat
  else if 'a' ≤ c && c ≤ 'f' then c.toNat - 'a'.toNat + 10
  else if 'A' ≤ c && c ≤ 'F' then c.toNat - 'A'.toNat + 10
  else 0

/-- Parse the body of a JSON string literal (the opening quote has been
consumed); returns the decoded characters and the input after the closing
quote.  Rejects raw control characters and bad escapes, as `JSON.parse`
does. -/
def parseStrBody : List Char → Option (List Char × List Char)
  | [] => none
  | c :: rest =>
      if c = '"' then some ([], rest)
      else if c = '\\' then
        match rest with
        | [] => none
        | e :: rest2 =>
            if e = 'u' then
              match rest2 with
              | h1 :: h2 :: h3 :: h4 :: rest3 =>
                  if isHexDigit h1 && isHexDigit h2 && isHexDigit h3 && isHexDigit h4 then
                    match parseStrBody rest3 with
                    | some (s, r) =>
                        some (Char.ofNat
                          (((hexVal h1 * 16 + hexVal h2) * 16 + hexVal h3) * 16 + hexVal h4) :: s, r)
                    | none => none
                  else none
              | _ => none
            else
              let dec : Option Char :=
                if e = '"' then some '"'
                else if e = '\\' then some '\\'
                else if e = '/' then some '/'
                else if e = 'b' then some (Char.ofNat 8)
                else if e = 'f' then some (Char.ofNat 12)
                else if e = 'n' then some '\n'
                else if e = 'r' then some '\r'
                else if e = 't' then some '\t'
                else none
              match dec with
              | some d =>
                  match parseStrBody rest2 with
                  | some (s, r) => some (d :: s, r)
                  | none => none
              | none => none
      else if c.toNat < 32 then none
      else
        match parseStrBody rest with
        | some (s, r) => some (c :: s, r)
        | none => none

/-- Digits `[0-9]+`, returning the lexeme and the rest. -/
def takeDigits (cs : List Char) : List Char × List Char :=
  (cs.takeWhile Char.isDigit, cs.dropWhile Char.isDigit)

/-- Strict JSON number grammar: `-? (0 | [1-9][0-9]*) frac? exp?`.
Returns the lexeme and the rest. -/
def parseNumLex (cs : List Char) : Option (List Char × List Char) :=
  let (sign, cs1) :=
    match cs with
    | '-' :: r => (['-'], r)
    | _ => (([] : List Char), cs)
  match cs1 with
  | [] => none
  | d :: _ =>
      if !d.isDigit then none
      else
        let (intPart, cs2) := takeDigits cs1
        if intPart.length > 1 && d = '0' then none
        else
          let (fracPart, cs3) :=
            match cs2 with
            | '.' :: r =>
                let (ds, r2) := takeDigits r
                if ds.isEmpty then (none, cs2) else (some ('.' :: ds), r2)
            | _ => (none, cs2)
          match fracPart with
          | none =>
              match cs2 with
              | '.' :: _ => none
              | _ =>
                  -- exponent directly after the integer part
                  match cs2 with
                  | e :: r =>
                      if e = 'e' || e = 'E' then
                        let (esign, r2) :=
                          match r with
                          | '+' :: r3 => (['+'], r3)
                          | '-' :: r3 => (['-'], r3)
                          | _ => (([] : List Char), r)
                        let (eds, r3) := takeDigits r2
                        if eds.isEmpty then none
                        else some (sign ++ intPart ++ e :: esign ++ eds, r3)
                      else some (sign ++ intPart, cs2)
                  | [] => some (sign ++ intPart, cs2)
          | some fp =>
              match cs3 with
              | e :: r =>
                  if e = 'e' || e = 'E' then
                    let (esign, r2) :=
                      match r with
                      | '+' :: r3 => (['+'], r3)
                      | '-' :: r3 => (['-'], r3)
                      | _ => (([] : List Char), r)
                    let (eds, r3) := takeDigits r2
                    if eds.isEmpty then none
                    else some (sign ++ intPart ++ fp ++ e :: esign ++ eds, r3)
                  else some (sign ++ intPart ++ fp, cs3)
              | [] => some (sign ++ intPart ++ fp, cs3)

/-- Check that `lit` occurs literally at the head of the input. -/
def expectLit : List Char → List Char → Option (List Char)
  | [], cs => some cs
  | l :: ls, c :: cs => if c = l then expectLit ls cs else none
  | _ :: _, [] => none

mutual

/-- One JSON value; fuel bounds the nesting depth. -/
def parseValue : Nat → List Char → Option (JsonValue × List Char)
  | 0, _ => none
  | fuel + 1, cs =>
      match cs.dropWhile jsonWs with
      | [] => none
      | c :: rest =>
          if c = 'n' then
            match expectLit ['u', 'l', 'l'] rest with
            | some r => some (.jnull, r)
            | none => none
          else if c = 't' then
            match expectLit ['r', 'u', 'e'] rest with
            | some r => some (.jbool true, r)
            | none => none
          else if c = 'f' then
            match expectLit ['a', 'l', 's', 'e'] rest with
            | some r => some (.jbool false, r)
            | none => none
          else if c = '"' then
            match parseStrBody rest with
            | some (s, r) => some (.jstr (String.mk s), r)
            | none => none
          else if c = '[' then
            match (rest.dropWhile jsonWs) with
            | ']' :: r => some (.jarr [], r)
            | _ =>
                match parseValue fuel rest with
                | some (v, r) =>
                    match parseArrRest fuel r with
                    | some (vs, r2) => some (.jarr (v :: vs), r2)
                    | none => none
                | none => none
          else if c = Char.ofNat 123 then  -- left brace
            match (rest.dropWhile jsonWs) with
            | q :: r =>
                if q = Char.ofNat 125 then  -- right brace
                  some (.jobj [], r)
                else
                  match parseMember fuel rest with
                  | some (kv, r2) =>
                      match parseObjRest fuel r2 with
                      | some (kvs, r3) => some (.jobj (kv :: kvs), r3)
                      | none => none
                  | none => none
            | [] => none
          else
            match parseNumLex (c :: rest) with
            | some (lex, r) => some (.jnum (String.mk lex), r)
            | none => none

/-- Array continuation: after a value, expect `,` + value ... or `]`. -/
def parseArrRest : Nat → List Char → Option (List JsonValue × List Char)
  | 0, _ => none
  | fuel + 1, cs =>
      match cs.dropWhile jsonWs with
      | ',' :: r =>
          match parseValue fuel r with
          | some (v, r2) =>
              match parseArrRest fuel r2 with
              | some (vs, r3) => some (v :: vs, r3)
              | none => none
          | none => none
      | ']' :: r => some ([], r)
      | _ => none

/-- One `"key": value` member. -/
def parseMember : Nat → List Char → Option ((String × JsonValue) × List Char)
  | 0, _ => none
  | fuel + 1, cs =>
      match cs.dropWhile jsonWs with
      | '"' :: r =>
          match parseStrBody r with
          | some (k, r2) =>
              match r2.dropWhile jsonWs with
              | ':' :: r3 =>
                  match parseValue fuel r3 with
                  | some (v, r4) => some ((String.mk k, v), r4)
                  | none => none
              | _ => none
          | none => none
      | _ => none

/-- Object continuation: after a member, expect `,` + member ... or `}`. -/
def parseObjRest : Nat → List Char → Option (List (String × JsonValue) × List Char)
  | 0, _ => none
  | fuel + 1, cs =>
      match cs.dropWhile jsonWs with
      | ',' :: r =>
          match parseMember fuel r with
          | some (kv, r2) =>
              match parseObjRest fuel r2 with
              | some (kvs, r3) => some (kv :: kvs, r3)
              | none => none
          | none => none
      | c :: r => if c = Char.ofNat 125 then some ([], r) else none
      | _ => none

end

/-- `JSON.parse` model over a character list: the whole input must be one
JSON value padded by whitespace. -/
def jsonParseL (cs : List Char) : Option JsonValue :=
  match parseValue (cs.length + 1) cs with
  | some (v, rest) => if (rest.dropWhile jsonWs).isEmpty then some v else none
  | none => none

/-- `JSON.parse` model on a string. -/
def jsonParse (s : String) : Option JsonValue :=
  jsonParseL s.toList

-- ===========================================================================
-- Resilient JSON extraction (`extractEventsFromText`, lines 126-222)
-- ===========================================================================

def lbrace : Char := Char.ofNat 123
def rbrace : Char := Char.ofNat 125

/-- `content.match(/\{[\s\S]*\}/)`: the span from the first left brace to
the last right brace strictly after it, or `none` when the regex does not
match. -/
def braceSpan (cs : List Char) : Option (List Char) :=
  let fromBrace := cs.dropWhile (fun c => c != lbrace)
  match fromBrace with
  | [] => none
  | _ :: _ =>
      let upToLast := (fromBrace.reverse.dropWhile (fun c => c != rbrace)).reverse
      if upToLast.length ≥ 2 then some upToLast else none

/-- One `for (let i = 0; i < n; i++) s += suffix` loop. -/
def appendNTimes (suffix : List Char) : List Char → Nat → List Char
  | cs, 0 => cs
  | cs, n + 1 => appendNTimes suffix (cs ++ suffix) n

/-- The script's truncation repair (lines 184-197): count braces and
brackets, append the two-character string `"]` once per missing close
bracket, then `}` once per missing close brace.  JS `for` loops with a
negative bound do not run, which Nat subtraction models exactly. -/
def repairJson (cs : List Char) : List Char :=
  let openBraces := countCh cs lbrace
  let closeBraces := countCh cs rbrace
  let openBrackets := countCh cs '['
  let closeBrackets := countCh cs ']'
  let afterBrackets := appendNTimes ['"', ']'] cs (openBrackets - closeBrackets)
  appendNTimes [rbrace] afterBrackets (openBraces - closeBraces)

/-- The repair step as the specification describes it: append one `"` when
the quote count is odd, then `]` once per missing close bracket, then `}`
once per missing close brace. -/
def repairSpecClaim (cs : List Char) : List Char :=
  let openBraces := countCh cs lbrace
  let closeBraces := countCh cs rbrace
  let openBrackets := countCh cs '['
  let closeBrackets := countCh cs ']'
  cs ++ (if countCh cs '"' % 2 = 1 then ['"'] else [])
     ++ List.replicate (openBrackets - closeBrackets) ']'
     ++ List.replicate (openBraces - closeBraces) rbrace

/-- The value of the extraction call as it is actually typed at runtime:
each component is whatever JSON value survived the defaulting checks. -/
structure RawFacts where
  events : JsonValue
  characters : JsonValue
  situation : JsonValue
deriving Repr

def emptyFacts : RawFacts :=
  { events := .jarr [], characters := .jobj [], situation := .jstr "" }

/-- JS `typeof v === 'object'`: true for objects, arrays and `null`. -/
def typeofObject : JsonValue → Bool
  | .jnull => true
  | .jarr _ => true
  | .jobj _ => true
  | _ => false

def isJArr : JsonValue → Bool
  | .jarr _ => true
  | _ => false

def isJStr : JsonValue → Bool
  | .jstr _ => true
  | _ => false

/-- Property access `parsed.k` on a parsed JSON object; `JSON.parse` keeps
the last duplicate key, hence the reversed search. -/
def jGet (fields : List (String × JsonValue)) (k : String) : Option JsonValue :=
  (fields.reverse.find? (fun p => p.1 == k)).map (fun p => p.2)

/-- The defaulting done at lines 201-205: `Array.isArray(parsed.events) ?
parsed.events : []`, `typeof parsed.characters === 'object' ?
parsed.characters : {}`, `typeof parsed.situation === 'string' ?
parsed.situation : ''`.  A missing property is `undefined`, which fails all
three checks. -/
def defaultFacts : JsonValue → RawFacts
  | .jobj fields =>
      { events :=
          match jGet fields "events" with
          | some v => if isJArr v then v else .jarr []
          | none => .jarr []
        characters :=
          match jGet fields "characters" with
          | some v => if typeofObject v then v else .jobj []
          | none => .jobj []
        situation :=
          match jGet fields "situation" with
          | some v => if isJStr v then v else .jstr ""
          | none => .jstr "" }
  | _ => emptyFacts

/-- Outcome of one `api.v1.generate` call: the text of the first choice
(`response.choices[0].text || ''`), a response with no choices, or a
raised error with its message. -/
inductive GenOutcome where
  | ok (text : String)
  | noChoices
  | err (msg : String)

/-- Characters sent to the model: `text.slice(-MAX_TEXT_FOR_EXTRACTION)`
when over the bound (only the prompt depends on this; the response is the
oracle's). -/
def processTextFor (text : String) : String :=
  if text.length > 8000 then String.mk (text.toList.drop (text.length - 8000)) else text

/-- `extractEventsFromText(text, keywords)` with the generate call answered
by `resp`: regex-match a brace span out of the response text, strict-parse
it, on failure repair and re-parse, then apply the defaulting; every
failure path degrades to empty facts and nothing is thrown. -/
def extractEventsFromTextModel (text : String) (keywords : List String)
    (resp : GenOutcome) : RawFacts :=
  let _promptWindow := processTextFor text
  let _hints := keywords
  match resp with
  | .err _ => emptyFacts
  | .noChoices => emptyFacts
  | .ok content =>
      match braceSpan content.toList with
      | none => emptyFacts
      | some span =>
          match jsonParseL span with
          | some v => defaultFacts v
          | none =>
              match jsonParseL (repairJson span) with
              | some v => defaultFacts v
              | none => emptyFacts

-- ===========================================================================
-- Data model (lines 16-58)
-- ===========================================================================

structure StoredEvent where
  id : String
  timestamp : Int
  text : String
  importance : Nat
  compressed : Bool
deriving Repr, DecidableEq

structure CharacterState where
  name : String
  state : String
  lastUpdated : Int
deriving Repr, DecidableEq

/-- Settings; the threshold is the float 0.8, modelled as the rational
`4/5` (all multiplications the claims exercise are exact in binary64). -/
structure ScriptSettings where
  tokenLimit : Nat
  autoUpdate : Bool
  trackedKeywords : List String
  compressionThreshold : ℚ
deriving Repr, DecidableEq

/-- The persisted storage blob; the character map is an insertion-ordered
association list, matching JS object key order. -/
structure ScriptStorage where
  events : List StoredEvent
  characters : List (String × CharacterState)
  settings : ScriptSettings
  lastProcessedSectionId : Option Int
  currentSituation : String
deriving Repr, DecidableEq

def DEFAULT_SETTINGS : ScriptSettings :=
  { tokenLimit := 1000
    autoUpdate := true
    trackedKeywords := []
    compressionThreshold := mkRat 4 5 }

def DEFAULT_STORAGE : ScriptStorage :=
  { events := []
    characters := []
    settings := DEFAULT_SETTINGS
    lastProcessedSectionId := none
    currentSituation := "" }

/-- `storage.characters[name] = v`: overwrite in place when the key exists,
otherwise append (JS object insertion order). -/
def recordSet (m : List (String × CharacterState)) (k : String) (v : CharacterState) :
    List (String × CharacterState) :=
  if (m.find? (fun p => p.1 == k)).isSome then
    m.map (fun p => if p.1 == k then (k, v) else p)
  else m ++ [(k, v)]

-- ===========================================================================
-- JS value coercions used where the untyped extraction result meets
-- typed storage fields
-- ===========================================================================

mutual

/-- JS string coercion (template-literal / assignment into a string slot). -/
def jsToStr : JsonValue → String
  | .jnull => "null"
  | .jbool true => "true"
  | .jbool false => "false"
  | .jnum lit => lit
  | .jstr s => s
  | .jarr xs => String.intercalate "," (jsToStrList xs)
  | .jobj _ => "[object Object]"

def jsToStrList : List JsonValue → List String
  | [] => []
  | v :: vs => jsToStr v :: jsToStrList vs

end

/-- Elements of the (guaranteed-by-defaulting) events array. -/
def jarrList : JsonValue → List JsonValue
  | .jarr xs => xs
  | _ => []

/-- `Object.entries(v)` for the values that can reach the character-merge
loop after defaulting kept `typeof v === 'object'`: an object yields its
fields, an array yields index/element pairs, and `null` throws a
`TypeError`, modelled as `none`.  (Other shapes cannot reach this call.) -/
def objEntries : JsonValue → Option (List (String × JsonValue))
  | .jnull => none
  | .jobj fields => some fields
  | .jarr xs => some (mapWithIdx (fun i v => (toString i, v)) xs)
  | _ => some []

-- ===========================================================================
-- Compression engine (`compressEvents`, lines 228-292)
-- ===========================================================================

/-- `events.slice(-n)` for a non-negative count (`slice(-0)` keeps all). -/
def jsSliceStartNeg (l : List α) (n : Nat) : List α :=
  if n = 0 then l else l.drop (l.length - n)

/-- `events.slice(0, -n)` (`slice(0, -0)` is empty). -/
def jsSliceEndNeg (l : List α) (n : Nat) : List α :=
  if n = 0 then [] else l.take (l.length - n)

/-- Strip one leading bullet marker plus following whitespace:
`line.replace(/^[•\-]\s*/, '')` applied to a line known to start with the
marker. -/
def stripBullet (cs : List Char) : List Char :=
  match cs with
  | c :: rest => if c = '•' || c = '-' then rest.dropWhile jsIsWs else cs
  | [] => cs

/-- Lines 267-271: split the response on newlines, trim each line, keep
lines starting with `•` or `-`, strip the marker. -/
def parseBullets (content : String) : List String :=
  (((splitLines content.toList).map jsTrim).filter
      (fun l => l.head? = some '•' || l.head? = some '-')).map
    (fun l => String.mk (stripBullet l))

def bulletCount (content : String) : Nat :=
  (parseBullets content).length

/-- `compressEvents(events, targetTokens)` with the summarization call
answered by `resp`; `ids` supplies `generateId()` results and `now` the
`Date.now()` clock.  `targetTokens` is accepted and, as in the source,
never used.  `Math.min(3, Math.floor(events.length * 0.3))` is modelled as
`min 3 (length * 3 / 10)`: the two agree for every length — binary64
rounding of `length * 0.3` can only cross an integer for lengths whose
floor is already ≥ 3, where `min` caps both sides at 3. -/
def compressEvents (events : List StoredEvent) (targetTokens : Nat)
    (resp : GenOutcome) (ids : Nat → String) (now : Int) : List StoredEvent :=
  let _ := targetTokens
  if events.length ≤ 3 then events
  else
    let recentCount := min 3 (events.length * 3 / 10)
    let recentEvents := jsSliceStartNeg events recentCount
    let olderEvents := jsSliceEndNeg events recentCount
    if olderEvents.length = 0 then events
    else
      match resp with
      | .ok content =>
          let compressedBullets := parseBullets content
          let inheritedTs : Int :=
            match olderEvents.head? with
            | some e => if e.timestamp = 0 then now else e.timestamp
            | none => now
          let compressedEvents := mapWithIdx
            (fun i text =>
              { id := ids i
                timestamp := inheritedTs
                text := text
                importance := 3
                compressed := true : StoredEvent })
            compressedBullets
          compressedEvents ++ recentEvents
      | .noChoices => events
      | .err _ => events

-- ===========================================================================
-- Memory compilation (`compileMemory` / `formatMemoryText`, lines 298-344)
-- ===========================================================================

def formatMemoryText (events : List StoredEvent)
    (characters : List (String × CharacterState)) (situation : String) : String :=
  let sections : List String :=
    (if events.length > 0 then
        ["=== STORY TIMELINE ===\n" ++
          String.intercalate "\n" (events.map (fun e => "• " ++ e.text))]
      else [])
    ++ (if situation ≠ "" then ["=== CURRENT SITUATION ===\n" ++ situation] else [])
    ++ (if characters.length > 0 then
          ["=== KEY CHARACTERS ===\n" ++
            String.intercalate "\n" (characters.map (fun p => p.1 ++ ": " ++ p.2.state))]
        else [])
  String.intercalate "\n\n" sections

/-- The guard `currentTokens > settings.tokenLimit * settings.compressionThreshold`
(line 307), written cross-multiplied over the integers; this is equivalent
to the rational comparison (`compressionTriggered_iff_rat` below) and
exact at the settings every claim exercises. -/
def compressionTriggered (storage : ScriptStorage) (currentTokens : Nat) : Bool :=
  (storage.settings.tokenLimit : Int) * storage.settings.compressionThreshold.num <
    (currentTokens : Int) * (storage.settings.compressionThreshold.den : Int)

/-- `compileMemory()` acting on the freshly saved storage: returns the
compiled text, whether the compression engine was invoked, and the storage
as persisted afterwards.  `tokenCount` is the `countTokens` oracle
(tokenizer result, or the `ceil(len/4)` fallback). -/
def compileMemory (storage : ScriptStorage) (tokenCount : String → Nat)
    (compressResp : GenOutcome) (ids : Nat → String) (now : Int) :
    String × Bool × ScriptStorage :=
  let currentText :=
    formatMemoryText storage.events storage.characters storage.currentSituation
  let currentTokens := tokenCount currentText
  if compressionTriggered storage currentTokens then
    let processedEvents :=
      compressEvents storage.events storage.settings.tokenLimit compressResp ids now
    let storage2 := { storage with events := processedEvents }
    (formatMemoryText processedEvents storage.characters storage.currentSituation,
      true, storage2)
  else
    (currentText, false, storage)

-- ===========================================================================
-- Incremental orchestrator (`processNewContent`, lines 350-432)
-- ===========================================================================

/-- A document: ordered `(sectionId, text)` pairs, as yielded by
`api.v1.document.scan()`; `api.v1.document.sectionIds()` is its id list. -/
def sectionIdsOf (doc : List (Int × String)) : List Int :=
  doc.map Prod.fst

/-- The scan loop (lines 371-380): accumulate `section.text + '\n'` for
every non-empty section strictly after the marker section; with a `none`
marker accumulate from the start. -/
def collectAux (marker : Option Int) : List (Int × String) → Bool → String → String
  | [], _, acc => acc
  | (sectionId, text) :: rest, started, acc =>
      if started then
        collectAux marker rest true (if text ≠ "" then acc ++ text ++ "\n" else acc)
      else if marker = some sectionId then collectAux marker rest true acc
      else collectAux marker rest false acc

def collectNewText (doc : List (Int × String)) (marker : Option Int) : String :=
  collectAux marker doc marker.isNone ""

/-- `sectionIds[sectionIds.length - 1]`. -/
def lastSectionId (doc : List (Int × String)) : Option Int :=
  (sectionIdsOf doc).getLast?

/-- Oracles consumed by one incremental cycle. -/
structure CycleEnv where
  extractResp : GenOutcome
  compressResp : GenOutcome
  tokenCount : String → Nat
  ids : Nat → String
  now : Int

/-- Result of one incremental cycle: the persisted storage blob afterwards,
the artifact published via `api.v1.memory.set` (if any), and whether the
body threw (the error is caught at lines 426-428 but skips the remaining
work of the cycle). -/
structure CycleResult where
  persisted : ScriptStorage
  published : Option String
  crashed : Bool
deriving Repr, DecidableEq

/-- One `processNewContent()` cycle, starting from persisted storage
`persisted`, under the sequential semantics (the lock aspect is modelled
separately).  The only program-logic exception in the body is
`Object.entries(extracted.characters)` when the defaulting let a `null`
through; it aborts the cycle before any `saveStorage`. -/
def runCycle (persisted : ScriptStorage) (doc : List (Int × String))
    (env : CycleEnv) : CycleResult :=
  let storage := persisted
  if !storage.settings.autoUpdate then ⟨persisted, none, false⟩
  else if doc.length = 0 then ⟨persisted, none, false⟩
  else
    let newText := collectNewText doc storage.lastProcessedSectionId
    let storage1 := { storage with lastProcessedSectionId := lastSectionId doc }
    if (jsTrim newText.toList).length < 50 then ⟨storage1, none, false⟩
    else
      let extracted :=
        extractEventsFromTextModel newText storage.settings.trackedKeywords env.extractResp
      let storage2 :=
        { storage1 with
            events := storage1.events ++ mapWithIdx
              (fun i v =>
                { id := env.ids i
                  timestamp := env.now
                  text := jsToStr v
                  importance := 3
                  compressed := false : StoredEvent })
              (jarrList extracted.events) }
      match objEntries extracted.characters with
      | none => ⟨persisted, none, true⟩
      | some entries =>
          let storage3 :=
            { storage2 with
                characters := entries.foldl
                  (fun m p => recordSet m p.1 ⟨p.1, jsToStr p.2, env.now⟩)
                  storage2.characters }
          let storage4 :=
            match extracted.situation with
            | .jstr s => if s ≠ "" then { storage3 with currentSituation := s } else storage3
            | _ => storage3
          let compiled := compileMemory storage4 env.tokenCount env.compressResp env.ids env.now
          ⟨compiled.2.2, some compiled.1, false⟩

-- ===========================================================================
-- Bulk reprocessor (`forceRefresh`, lines 434-536)
-- ===========================================================================

/-- Lines 449-455: concatenate `section.text + '\n'` over the whole scan. -/
def concatSections (doc : List (Int × String)) : String :=
  doc.foldl (fun acc p => if p.2 ≠ "" then acc ++ p.2 ++ "\n" else acc) ""

def CHUNK_SIZE : Nat := 6000

/-- Start offsets of the loop `for (let i = 0; i < L; i += CHUNK_SIZE - 1000)`. -/
def chunkStartsAux (L i : Nat) : List Nat :=
  if i < L then i :: chunkStartsAux L (i + (CHUNK_SIZE - 1000)) else []
termination_by L - i
decreasing_by simp [CHUNK_SIZE]; omega

def chunkStarts (L : Nat) : List Nat :=
  chunkStartsAux L 0

/-- Lines 462-474: one chunk per start offset when the text is over one
window long, otherwise a single chunk. -/
def chunksOf (s : String) : List String :=
  if s.length > CHUNK_SIZE then
    (chunkStarts s.length).map (fun i => String.mk (jsSlice s.toList i (i + CHUNK_SIZE)))
  else [s]

/-- The index window `[i, min(i+W, L))` that `fullText.slice(i, i + CHUNK_SIZE)`
reads, for each chunk start. -/
def chunkIntervals (L : Nat) : List (Nat × Nat) :=
  (chunkStarts L).map (fun i => (i, min (i + CHUNK_SIZE) L))

/-- Oracles consumed by a full refresh. -/
structure RefreshEnv where
  chunkResp : Nat → GenOutcome
  compressResp : GenOutcome
  tokenCount : String → Nat
  ids : Nat → String
  now : Int

/-- Lines 485-515: process one chunk.  A `TypeError` from
`Object.entries(null)` is caught by the per-chunk handler, so that chunk's
character/situation updates are skipped but its events stay. -/
def processChunk (numChunks : Nat) (env : RefreshEnv) (storage : ScriptStorage)
    (i : Nat) (chunk : String) : ScriptStorage :=
  let extracted :=
    extractEventsFromTextModel chunk storage.settings.trackedKeywords (env.chunkResp i)
  let maxEventsPerChunk := (10 + numChunks - 1) / numChunks + 2
  let storage1 :=
    { storage with
        events := storage.events ++ mapWithIdx
          (fun j v =>
            { id := env.ids (i * 1000 + j)
              timestamp := env.now - (numChunks - i) * 1000
              text := jsToStr v
              importance := 3
              compressed := false : StoredEvent })
          ((jarrList extracted.events).take maxEventsPerChunk) }
  match objEntries extracted.characters with
  | none => storage1
  | some entries =>
      let storage2 :=
        { storage1 with
            characters := entries.foldl
              (fun m p => recordSet m p.1 ⟨p.1, jsToStr p.2, env.now⟩)
              storage1.characters }
      if i = numChunks - 1 then
        match extracted.situation with
        | .jstr s => if s ≠ "" then { storage2 with currentSituation := s } else storage2
        | _ => storage2
      else storage2

/-- `forceRefresh()` as a function from the persisted storage, the
document and the oracles to the persisted storage afterwards and the
published artifact (`none` when `api.v1.memory.set` is never reached).
The early "not enough content" return happens before any `saveStorage`,
so the cleared local copy is discarded there. -/
def forceRefreshModel (persisted : ScriptStorage) (doc : List (Int × String))
    (env : RefreshEnv) : ScriptStorage × Option String :=
  let storage :=
    { persisted with events := [], characters := [], currentSituation := "" }
  let fullText := concatSections doc
  if (jsTrim fullText.toList).length < 50 then (persisted, none)
  else
    let chunks := chunksOf fullText
    let storage2 :=
      (mapWithIdx (fun i c => (i, c)) chunks).foldl
        (fun st p => processChunk chunks.length env st p.1 p.2) storage
    let storage3 :=
      match lastSectionId doc with
      | some lid => { storage2 with lastProcessedSectionId := some lid }
      | none => storage2
    let compiled := compileMemory storage3 env.tokenCount env.compressResp env.ids env.now
    (compiled.2.2, some compiled.1)

-- ===========================================================================
-- The `isProcessing` lock under cooperative scheduling (lines 113-114,
-- 350-361, 434-436)
-- ===========================================================================

/-- Control locations of one `processNewContent` invocation, cut at the
`await` boundaries relevant to the lock:
* `ready`   — about to run the segment `if (isProcessing) ... return` and,
  when the lock is free, call `await getStorage()` (line 357), suspending;
* `loaded`  — resumed after the storage load with `autoUpdate` on; the next
  segment sets `isProcessing = true` and enters the cycle body;
* `running` — executing the cycle body (extraction, state mutation,
  publish; its internal awaits only add interleavings);
* `doneSkip` — returned at line 354 without doing any work;
* `doneRan`  — finished the body; the `finally` cleared the lock. -/
inductive PncPC where
  | ready
  | loaded
  | running
  | doneSkip
  | doneRan
deriving Repr, DecidableEq

/-- Two overlapping `processNewContent` invocations sharing the module
lock. -/
structure SysPair where
  lock : Bool
  a : PncPC
  b : PncPC
deriving Repr, DecidableEq

/-- Interleaved small-step semantics of the two invocations. -/
inductive PairStep : SysPair → SysPair → Prop where
  | aSkip (pb : PncPC) : PairStep ⟨true, .ready, pb⟩ ⟨true, .doneSkip, pb⟩
  | aEnter (pb : PncPC) : PairStep ⟨false, .ready, pb⟩ ⟨false, .loaded, pb⟩
  | aAcquire (l : Bool) (pb : PncPC) : PairStep ⟨l, .loaded, pb⟩ ⟨true, .running, pb⟩
  | aFinish (l : Bool) (pb : PncPC) : PairStep ⟨l, .running, pb⟩ ⟨false, .doneRan, pb⟩
  | bSkip (pa : PncPC) : PairStep ⟨true, pa, .ready⟩ ⟨true, pa, .doneSkip⟩
  | bEnter (pa : PncPC) : PairStep ⟨false, pa, .ready⟩ ⟨false, pa, .loaded⟩
  | bAcquire (l : Bool) (pa : PncPC) : PairStep ⟨l, pa, .loaded⟩ ⟨true, pa, .running⟩
  | bFinish (l : Bool) (pa : PncPC) : PairStep ⟨l, pa, .running⟩ ⟨false, pa, .doneRan⟩

def pairInit : SysPair := ⟨false, .ready, .ready⟩

/-- Control locations of one `forceRefresh` invocation:
* `ready`    — about to run its first segment, which executes
  `isProcessing = false` (line 436) and then suspends in `await getStorage()`;
* `working`  — the refresh body is in progress (scan, chunk loop, save,
  publish — all its awaits keep the machine in this location);
* `finished` — returned.  `forceRefresh` never sets `isProcessing`. -/
inductive FrPC where
  | ready
  | working
  | finished
deriving Repr, DecidableEq

/-- One incremental invocation running alongside one full refresh. -/
structure SysMix where
  lock : Bool
  p : PncPC
  f : FrPC
deriving Repr, DecidableEq

inductive MixStep : SysMix → SysMix → Prop where
  | frStart (l : Bool) (p : PncPC) : MixStep ⟨l, p, .ready⟩ ⟨false, p, .working⟩
  | frFinish (l : Bool) (p : PncPC) : MixStep ⟨l, p, .working⟩ ⟨l, p, .finished⟩
  | pSkip (f : FrPC) : MixStep ⟨true, .ready, f⟩ ⟨true, .doneSkip, f⟩
  | pEnter (f : FrPC) : MixStep ⟨false, .ready, f⟩ ⟨false, .loaded, f⟩
  | pAcquire (l : Bool) (f : FrPC) : MixStep ⟨l, .loaded, f⟩ ⟨true, .running, f⟩
  | pFinish (l : Bool) (f : FrPC) : MixStep ⟨l, .running, f⟩ ⟨false, .doneRan, f⟩

def mixInit : SysMix := ⟨false, .ready, .ready⟩

-- ===========================================================================
-- Definitions used to state the claims about chunking and the marker
-- ===========================================================================

/-- Number of characters shared by the windows starting at `a` and at
`b ≥ a` (capped at length `L`): `|[a, min(a+W,L)) ∩ [b, min(b+W,L))|`. -/
def overlapLen (L a b : Nat) : Nat :=
  min (a + CHUNK_SIZE) L - b

/-- Every pair of consecutive windows overlaps by exactly `target b`
characters, where `b` is the later window's start. -/
def consecOverlapIs (L : Nat) (target : Nat → Nat) (starts : List Nat) : Prop :=
  List.Chain' (fun a b => overlapLen L a b = target b) starts

/-- Claim C8 as stated: full coverage of `[0, L)` and every two
consecutive windows share exactly 1000 characters. -/
def chunkCoverageClaim (L : Nat) : Prop :=
  (∀ k, k < L → ∃ i, i ∈ chunkStarts L ∧ i ≤ k ∧ k < i + CHUNK_SIZE) ∧
    consecOverlapIs L (fun _ => 1000) (chunkStarts L)

/-- Index of a section id in the id list (first occurrence). -/
def idxOfInt (x : Int) : List Int → Nat
  | [] => 0
  | y :: ys => if y = x then 0 else idxOfInt x ys + 1

/-- Document-order position of a marker: `none` (nothing processed yet)
sits before every section. -/
def markerPos (ids : List Int) : Option Int → Nat
  | none => 0
  | some i => idxOfInt i ids + 1

-- ===========================================================================
-- Concrete instances used by the claim theorems
-- ===========================================================================

/-- A brace span that fails strict parsing with balanced quotes but an
unclosed bracket and brace (a model response truncated right after a
number). -/
def truncSpanC3 : String := "\x7b\x22a\x22:[1"

/-- A syntactically valid model response whose `characters` value is
`null`. -/
def respNullChars : GenOutcome :=
  .ok "\x7b\x22events\x22:[],\x22characters\x22:null,\x22situation\x22:\x22\x22\x7d"

/-- A syntactically valid model response carrying one event. -/
def respOneEvent : GenOutcome :=
  .ok "\x7b\x22events\x22:[\x22E\x22],\x22characters\x22:\x7b\x7d,\x22situation\x22:\x22\x22\x7d"

def evQuad : List StoredEvent :=
  [⟨"evt_1", 1, "event one", 3, false⟩,
   ⟨"evt_2", 2, "event two", 3, false⟩,
   ⟨"evt_3", 3, "event three", 3, false⟩,
   ⟨"evt_4", 4, "event four", 3, false⟩]

/-- A summarization response containing five bullet lines. -/
def fiveBullets : String := "•a\n•b\n•c\n•d\n•e"

def idsTriv : Nat → String := fun _ => "evt_new"

/-- A one-section document with more than 50 characters of text. -/
def docOne : List (Int × String) :=
  [(1, "This is a sufficiently long section of story text for the cycle to process.")]

def envCrash : CycleEnv := ⟨respNullChars, .err "boom", fun _ => 0, idsTriv, 0⟩

def envOneEvent : CycleEnv := ⟨respOneEvent, .err "boom", fun _ => 0, idsTriv, 0⟩

def tokens850 : String → Nat := fun _ => 850

def envRefreshTriv : RefreshEnv := ⟨fun _ => .noChoices, .noChoices, fun _ => 0, idsTriv, 0⟩

def docShort : List (Int × String) := [(1, "short")]

-- ===========================================================================
-- Theorems
-- ===========================================================================

/-- C1.  Evaluation of the failing schedule: under cooperative scheduling
with a suspension at the `await getStorage()` that sits between the
`isProcessing` check (line 352) and `isProcessing = true` (line 360), two
overlapping `processNewContent` invocations can both pass the check and
both reach the cycle body, so the lock does not enforce mutual exclusion
as claimed. -/
theorem processNewContent_lock_race_reachable :
    ∃ s, Relation.ReflTransGen PairStep pairInit s ∧
      s.a = PncPC.running ∧ s.b = PncPC.running := by
  refine ⟨⟨true, .running, .running⟩, ?_, rfl, rfl⟩
  have s1 : PairStep ⟨false, .ready, .ready⟩ ⟨false, .loaded, .ready⟩ :=
    PairStep.aEnter .ready
  have s2 : PairStep ⟨false, .loaded, .ready⟩ ⟨false, .loaded, .loaded⟩ :=
    PairStep.bEnter .loaded
  have s3 : PairStep ⟨false, .loaded, .loaded⟩ ⟨true, .running, .loaded⟩ :=
    PairStep.aAcquire false .loaded
  have s4 : PairStep ⟨true, .running, .loaded⟩ ⟨true, .running, .running⟩ :=
    PairStep.bAcquire true .running
  exact Relation.ReflTransGen.head s1
    (Relation.ReflTransGen.head s2
      (Relation.ReflTransGen.head s3 (Relation.ReflTransGen.single s4)))

/-- C5.  Evaluation of the failing schedule: `forceRefresh` clears the
lock at its start (line 436) and never sets it, so while a refresh is in
progress an incremental `processNewContent` invocation finds the lock free
and runs its whole body concurrently — the two are not mutually excluded
by the lock. -/
theorem forceRefresh_not_serialized_reachable :
    ∃ s, Relation.ReflTransGen MixStep mixInit s ∧
      s.p = PncPC.running ∧ s.f = FrPC.working := by
  refine ⟨⟨true, .running, .working⟩, ?_, rfl, rfl⟩
  have s1 : MixStep ⟨false, .ready, .ready⟩ ⟨false, .ready, .working⟩ :=
    MixStep.frStart false .ready
  have s2 : MixStep ⟨false, .ready, .working⟩ ⟨false, .loaded, .working⟩ :=
    MixStep.pEnter .working
  have s3 : MixStep ⟨false, .loaded, .working⟩ ⟨true, .running, .working⟩ :=
    MixStep.pAcquire false .working
  exact Relation.ReflTransGen.head s1
    (Relation.ReflTransGen.head s2 (Relation.ReflTransGen.single s3))

/-- C3, counterexample.  On the span `{"a":[1` — which fails strict
parsing and has an even quote count — the script's repair appends `"]` and
`}` giving `{"a":[1"]}`, while the claimed algorithm (quote-parity check,
then bare `]`s, then `}`s) would give `{"a":[1]}`; the two repairs
differ. -/
theorem repair_step_counterexample :
    jsonParse truncSpanC3 = none ∧
      repairJson truncSpanC3.toList ≠ repairSpecClaim truncSpanC3.toList := by
  exact ⟨rfl, by decide⟩

/-- C4.  Evaluation at the failing input: a response whose parsed
`characters` value is `null` passes the `typeof === 'object'` check, so
`extractEventsFromText` returns `null` as the characters value, not the
empty mapping the claim (and the declared return type) promises. -/
theorem extract_null_characters_eval :
    (extractEventsFromTextModel "t" [] respNullChars).characters = JsonValue.jnull ∧
      JsonValue.jnull ≠ JsonValue.jobj [] :=
  ⟨rfl, fun h => nomatch h⟩

/-- C2, counterexample.  A successful summarization call whose response
contains five bullet lines makes `compressEvents` return six events for a
four-event input: the result is larger than the input, refuting "size at
most the original size" for every successful call. -/
theorem compressEvents_growth_counterexample :
    3 < evQuad.length ∧
      evQuad.length <
        (compressEvents evQuad 1000 (GenOutcome.ok fiveBullets) idsTriv 0).length := by
  constructor
  · decide
  · decide

/-- C6.  Evaluation at the failing input: a cycle that reaches the
section-listing step with more than 50 characters of new text, but whose
extraction response carries `"characters": null`, throws at
`Object.entries` before `saveStorage`, so the stored
`lastProcessedSectionId` is NOT advanced to the last section id (it stays
`none`), contradicting "advanced … and persisted regardless". -/
theorem cycle_crash_marker_not_advanced :
    50 ≤ (jsTrim (collectNewText docOne none).toList).length ∧
      lastSectionId docOne = some 1 ∧
      (runCycle DEFAULT_STORAGE docOne envCrash).crashed = true ∧
      (runCycle DEFAULT_STORAGE docOne envCrash).persisted.lastProcessedSectionId = none := by
  refine ⟨by decide, rfl, rfl, rfl⟩

/-- C7.  Evaluation at the failing input: after a first cycle aborted by
the `Object.entries(null)` `TypeError` (marker not persisted), a second
cycle over the unchanged document re-collects the same text and merges new
facts — the second run changes `events`, refuting idempotence as stated. -/
theorem second_cycle_not_idempotent_eval :
    ((runCycle (runCycle DEFAULT_STORAGE docOne envCrash).persisted
        docOne envOneEvent).persisted.events).length ≠
      ((runCycle DEFAULT_STORAGE docOne envCrash).persisted.events).length := by
  decide

theorem mapIdxAux_length (f : Nat → α → β) : ∀ (i : Nat) (l : List α),
    (mapIdxAux f i l).length = l.length := by
  intro i l
  induction l generalizing i with
  | nil => rfl
  | cons a as ih => simp [mapIdxAux, ih]

theorem mapWithIdx_length (f : Nat → α → β) (l : List α) :
    (mapWithIdx f l).length = l.length := mapIdxAux_length f 0 l

/-- C2, amended.  For more than three events: on a successful
summarization call the result is the parsed bullet events followed by the
untouched last `recentCount = min(3, floor(0.3·length))` input events, so
(a) the last `recentCount` elements are preserved verbatim, and (b) the
result is no larger than the input whenever the response carries at most
`olderCount` bullet lines (the prompt requests at most `ceil(olderCount/3)`,
but the script never enforces the cap, which is what the counterexample
exploits); on a failing call (raised error, or a response without choices)
the input is returned exactly. -/
theorem compressEvents_amended (events : List StoredEvent) (tt : Nat)
    (ids : Nat → String) (now : Int) (h : 3 < events.length) :
    (∀ content,
        ((compressEvents events tt (.ok content) ids now).drop
            ((compressEvents events tt (.ok content) ids now).length -
              min 3 (events.length * 3 / 10)) =
          events.drop (events.length - min 3 (events.length * 3 / 10))) ∧
        (bulletCount content ≤ events.length - min 3 (events.length * 3 / 10) →
          (compressEvents events tt (.ok content) ids now).length ≤ events.length)) ∧
    (∀ m, compressEvents events tt (.err m) ids now = events) ∧
    compressEvents events tt .noChoices ids now = events := by
  have hrc3 : min 3 (events.length * 3 / 10) ≤ 3 := min_le_left _ _
  have hdiv : 1 ≤ events.length * 3 / 10 := by omega
  have hrc1 : min 3 (events.length * 3 / 10) ≠ 0 := by omega
  refine ⟨?_, ?_, ?_⟩
  · intro content
    have hshape : compressEvents events tt (.ok content) ids now =
        mapWithIdx
          (fun i text =>
            { id := ids i
              timestamp :=
                match (events.take (events.length - min 3 (events.length * 3 / 10))).head? with
                | some e => if e.timestamp = 0 then now else e.timestamp
                | none => now
              text := text
              importance := 3
              compressed := true : StoredEvent })
          (parseBullets content) ++
          events.drop (events.length - min 3 (events.length * 3 / 10)) := by
      simp only [compressEvents]
      rw [if_neg (by omega : ¬ events.length ≤ 3)]
      simp only [jsSliceStartNeg, jsSliceEndNeg, if_neg hrc1]
      rw [if_neg (show ¬ (events.take (events.length - min 3 (events.length * 3 / 10))).length = 0 by
        rw [List.length_take]; omega)]
    rw [hshape]
    constructor
    · rw [List.length_append, mapWithIdx_length, List.length_drop]
      rw [show (parseBullets content).length +
            (events.length - (events.length - min 3 (events.length * 3 / 10))) -
            min 3 (events.length * 3 / 10) = (parseBullets content).length from by omega]
      rw [← mapWithIdx_length
        (fun i text =>
            { id := ids i
              timestamp :=
                match (events.take (events.length - min 3 (events.length * 3 / 10))).head? with
                | some e => if e.timestamp = 0 then now else e.timestamp
                | none => now
              text := text
              importance := 3
              compressed := true : StoredEvent })
        (parseBullets content)]
      exact List.drop_left _ _
    · intro hb
      rw [List.length_append, mapWithIdx_length, List.length_drop]
      unfold bulletCount at hb
      omega
  · intro m
    simp only [compressEvents]
    rw [if_neg (by omega : ¬ events.length ≤ 3)]
    simp only [jsSliceStartNeg, jsSliceEndNeg, if_neg hrc1]
    rw [if_neg (show ¬ (events.take (events.length - min 3 (events.length * 3 / 10))).length = 0 by
      rw [List.length_take]; omega)]
  · simp only [compressEvents]
    rw [if_neg (by omega : ¬ events.length ≤ 3)]
    simp only [jsSliceStartNeg, jsSliceEndNeg, if_neg hrc1]
    rw [if_neg (show ¬ (events.take (events.length - min 3 (events.length * 3 / 10))).length = 0 by
      rw [List.length_take]; omega)]

theorem compressEvents_amended_witness :
    compressEvents evQuad 1000 (GenOutcome.err "boom") idsTriv 0 = evQuad :=
  (compressEvents_amended evQuad 1000 idsTriv 0 (by decide)).2.1 "boom"

theorem appendNTimes_eq (suffix : List Char) : ∀ (cs : List Char) (n : Nat),
    appendNTimes suffix cs n = cs ++ List.flatten (List.replicate n suffix) := by
  intro cs n
  induction n generalizing cs with
  | zero => simp [appendNTimes]
  | succ n ih => simp [appendNTimes, ih, List.replicate_succ]

theorem flatten_replicate_singleton (a : α) : ∀ n,
    List.flatten (List.replicate n [a]) = List.replicate n a := by
  intro n
  induction n with
  | zero => rfl
  | succ n ih => simp [List.replicate_succ, ih]

/-- C3, amended.  On every span, the repair appends the two-character
string `"]` exactly `(openBrackets − closeBrackets)` times and then `}`
exactly `(openBraces − closeBraces)` times; no quote-parity check is
performed and no bare `]` is ever appended. -/
theorem repairJson_appends_bracket_pairs_then_braces (cs : List Char) :
    repairJson cs =
      cs ++ List.flatten (List.replicate (countCh cs '[' - countCh cs ']') ['"', ']'])
         ++ List.replicate (countCh cs lbrace - countCh cs rbrace) rbrace := by
  unfold repairJson
  rw [appendNTimes_eq, appendNTimes_eq, flatten_replicate_singleton, List.append_assoc]

theorem chunkStartsAux_unfold (L i : Nat) :
    chunkStartsAux L i = if i < L then i :: chunkStartsAux L (i + 5000) else [] := by
  rw [chunkStartsAux]
  norm_num [CHUNK_SIZE]

theorem chunkStartsAux_cover (d : Nat) : ∀ L i k, L - i ≤ d → i ≤ k → k < L →
    ∃ j, j ∈ chunkStartsAux L i ∧ j ≤ k ∧ k < j + CHUNK_SIZE := by
  induction d with
  | zero => intro L i k h1 h2 h3; omega
  | succ d ih =>
      intro L i k h1 h2 h3
      have hiL : i < L := by omega
      rw [chunkStartsAux_unfold, if_pos hiL]
      by_cases hk : k < i + 5000
      · exact ⟨i, List.mem_cons_self _ _, h2, by simp only [CHUNK_SIZE]; omega⟩
      · obtain ⟨j, hj, hj2, hj3⟩ := ih L (i + 5000) k (by omega) (by omega) h3
        exact ⟨j, List.mem_cons_of_mem _ hj, hj2, hj3⟩

theorem chunkStartsAux_overlap (d : Nat) : ∀ L i, L - i ≤ d →
    consecOverlapIs L (fun b => min 1000 (L - b)) (chunkStartsAux L i) := by
  induction d with
  | zero =>
      intro L i h
      rw [chunkStartsAux_unfold, if_neg (by omega : ¬ i < L)]
      exact List.chain'_nil
  | succ d ih =>
      intro L i h
      by_cases hiL : i < L
      · rw [chunkStartsAux_unfold, if_pos hiL]
        by_cases h2 : i + 5000 < L
        · have htail := ih L (i + 5000) (by omega)
          rw [chunkStartsAux_unfold, if_pos h2] at htail
          rw [chunkStartsAux_unfold, if_pos h2]
          rw [consecOverlapIs, List.chain'_cons]
          exact ⟨by simp only [overlapLen, CHUNK_SIZE]; omega, htail⟩
        · rw [chunkStartsAux_unfold, if_neg h2]
          exact List.chain'_singleton _
      · rw [chunkStartsAux_unfold, if_neg hiL]
        exact List.chain'_nil

/-- C8, amended.  For every backlog length `L > 6000`, the windows
`[i, i+6000)`, `i ∈ chunkStarts L`, cover every index of `[0, L)`, and
each pair of consecutive windows overlaps by `min(1000, L − b)` characters
where `b` is the later window's start — exactly 1000 except possibly the
final pair, when the final window is shorter than 1000 characters. -/
theorem chunk_coverage_overlap_amended (L : Nat) (h : 6000 < L) :
    (∀ k, k < L → ∃ j, j ∈ chunkStarts L ∧ j ≤ k ∧ k < j + CHUNK_SIZE) ∧
      consecOverlapIs L (fun b => min 1000 (L - b)) (chunkStarts L) :=
  ⟨fun k hk => chunkStartsAux_cover L L 0 k (by omega) (by omega) hk,
    chunkStartsAux_overlap L L 0 (by omega)⟩

theorem chunk_coverage_overlap_amended_witness :
    ∃ j, j ∈ chunkStarts 7000 ∧ j ≤ 6500 ∧ 6500 < j + CHUNK_SIZE :=
  (chunk_coverage_overlap_amended 7000 (by norm_num)).1 6500 (by norm_num)

/-- C8, counterexample.  At backlog length `L = 10001` the chunk starts
are `[0, 5000, 10000]` and the last two windows `[5000, 10001)` and
`[10000, 10001)` share exactly 1 character, not 1000, refuting the claim
as stated (its only allowance is a short final window). -/
theorem chunk_overlap_claim_counterexample :
    6000 < 10001 ∧ ¬ chunkCoverageClaim 10001 := by
  refine ⟨by norm_num, ?_⟩
  rintro ⟨-, hov⟩
  have hcs : chunkStarts 10001 = [0, 5000, 10000] := by
    simp [chunkStarts, chunkStartsAux, CHUNK_SIZE]
  rw [hcs] at hov
  simp only [consecOverlapIs, List.chain'_cons, List.chain'_singleton, and_true] at hov
  obtain ⟨-, hbad⟩ := hov
  simp only [overlapLen, CHUNK_SIZE] at hbad
  omega

/-- The integer guard in `compileMemory` is exactly the rational
comparison `tokenLimit * compressionThreshold < currentTokens`. -/
theorem compressionTriggered_iff_rat (storage : ScriptStorage) (t : Nat) :
    compressionTriggered storage t = true ↔
      (storage.settings.tokenLimit : ℚ) * storage.settings.compressionThreshold < (t : ℚ) := by
  set q := storage.settings.compressionThreshold with hq
  have hden : (0 : ℚ) < (q.den : ℚ) := by exact_mod_cast q.den_pos
  rw [compressionTriggered, decide_eq_true_iff]
  conv_rhs => rw [← Rat.num_div_den q, ← mul_div_assoc, div_lt_iff₀ hden]
  constructor
  · intro h; exact_mod_cast h
  · intro h; exact_mod_cast h

/-- C9.  With `tokenLimit = 1000` and `compressionThreshold = 0.8` (the
defaults), `compileMemory` invokes the compression engine exactly when the
measured token count of the compiled text strictly exceeds 800; in
particular 850 tokens trigger compression and 750 do not. -/
theorem compileMemory_threshold_iff (storage : ScriptStorage) (tc : String → Nat)
    (cr : GenOutcome) (ids : Nat → String) (now : Int)
    (h1 : storage.settings.tokenLimit = 1000)
    (h2 : storage.settings.compressionThreshold = mkRat 4 5) :
    ((compileMemory storage tc cr ids now).2.1 = true ↔
      800 < tc (formatMemoryText storage.events storage.characters storage.currentSituation)) := by
  have hb : ∀ T : Nat, compressionTriggered storage T = decide (800 < T) := by
    intro T
    unfold compressionTriggered
    rw [h1, h2, show (mkRat 4 5).num = 4 from rfl, show (mkRat 4 5).den = 5 from rfl,
      decide_eq_decide]
    omega
  cases hd : decide (800 < tc (formatMemoryText storage.events storage.characters storage.currentSituation)) with
  | true =>
      simp only [compileMemory, hb, hd, if_true]
      simpa using of_decide_eq_true hd
  | false =>
      simp only [compileMemory, hb, hd, if_false]
      simpa using of_decide_eq_false hd

theorem compileMemory_threshold_iff_witness :
    (compileMemory DEFAULT_STORAGE tokens850 GenOutcome.noChoices idsTriv 0).2.1 = true :=
  (compileMemory_threshold_iff DEFAULT_STORAGE tokens850 GenOutcome.noChoices idsTriv 0
      rfl rfl).mpr (by decide)

/-- C10.  When the trimmed concatenation of all section text is shorter
than 50 characters, `forceRefresh` returns at the "not enough content"
signal before any `saveStorage` or `memory.set`: the persisted state and
the published artifact are exactly as before the call (the cleared events,
characters and situation lived only on the discarded local copy). -/
theorem forceRefresh_early_abort (persisted : ScriptStorage)
    (doc : List (Int × String)) (env : RefreshEnv)
    (h : (jsTrim (concatSections doc).toList).length < 50) :
    forceRefreshModel persisted doc env = (persisted, none) := by
  rw [forceRefreshModel]
  simp only [if_pos h]

theorem forceRefresh_early_abort_witness :
    forceRefreshModel DEFAULT_STORAGE docShort envRefreshTriv = (DEFAULT_STORAGE, none) :=
  forceRefresh_early_abort DEFAULT_STORAGE docShort envRefreshTriv (by decide)

theorem collectAux_after_last (lid : Int) (t : String) :
    ∀ (ds : List (Int × String)) (acc : String), lid ∉ ds.map Prod.fst →
      collectAux (some lid) (ds ++ [(lid, t)]) false acc = acc := by
  intro ds
  induction ds with
  | nil =>
      intro acc _
      simp [collectAux]
  | cons a ds ih =>
      intro acc h
      obtain ⟨sid, txt⟩ := a
      simp only [List.map_cons, List.mem_cons] at h
      push_neg at h
      obtain ⟨h1, h2⟩ := h
      rw [List.cons_append]
      have hstep : collectAux (some lid) ((sid, txt) :: (ds ++ [(lid, t)])) false acc =
          collectAux (some lid) (ds ++ [(lid, t)]) false acc := by
        simp [collectAux, h1]
      rw [hstep]
      exact ih acc h2

theorem collectNewText_last (doc : List (Int × String)) (hne : doc ≠ [])
    (hnodup : (sectionIdsOf doc).Nodup) :
    collectNewText doc (lastSectionId doc) = "" := by
  induction doc using List.reverseRecOn with
  | nil => exact absurd rfl hne
  | append_singleton ds p _ =>
      obtain ⟨sid, txt⟩ := p
      have hl : lastSectionId (ds ++ [(sid, txt)]) = some sid := by
        simp [lastSectionId, sectionIdsOf]
      rw [hl]
      have hmem : sid ∉ ds.map Prod.fst := by
        simp only [sectionIdsOf, List.map_append, List.map_cons, List.map_nil] at hnodup
        rw [List.nodup_append] at hnodup
        exact fun hin => hnodup.2.2 hin (List.mem_singleton_self _)
      unfold collectNewText
      simpa using collectAux_after_last sid txt ds "" hmem

theorem compileMemory_preserves (storage : ScriptStorage) (tc : String → Nat)
    (cr : GenOutcome) (ids : Nat → String) (now : Int) :
    (compileMemory storage tc cr ids now).2.2.lastProcessedSectionId =
        storage.lastProcessedSectionId ∧
      (compileMemory storage tc cr ids now).2.2.settings = storage.settings := by
  simp only [compileMemory]
  split
  · exact ⟨rfl, rfl⟩
  · exact ⟨rfl, rfl⟩

theorem runCycle_autoUpdate_false (st : ScriptStorage) (doc : List (Int × String))
    (env : CycleEnv) (h : st.settings.autoUpdate = false) :
    runCycle st doc env = ⟨st, none, false⟩ := by
  simp [runCycle, h]

theorem runCycle_nil (st : ScriptStorage) (env : CycleEnv) :
    runCycle st [] env = ⟨st, none, false⟩ := by
  simp [runCycle]

theorem runCycle_short (st : ScriptStorage) (doc : List (Int × String)) (env : CycleEnv)
    (hau : st.settings.autoUpdate = true) (hd : doc.length ≠ 0)
    (hshort : (jsTrim (collectNewText doc st.lastProcessedSectionId).toList).length < 50) :
    runCycle st doc env =
      ⟨{ st with lastProcessedSectionId := lastSectionId doc }, none, false⟩ := by
  have hshort2 : (jsTrim (collectNewText doc st.lastProcessedSectionId).data).length < 50 :=
    hshort
  simp [runCycle, hau, hd, hshort2]

theorem runCycle_second_noop (st : ScriptStorage) (doc : List (Int × String)) (env : CycleEnv)
    (hau : st.settings.autoUpdate = true) (hne : doc ≠ [])
    (hm : st.lastProcessedSectionId = lastSectionId doc)
    (hnodup : (sectionIdsOf doc).Nodup) :
    runCycle st doc env = ⟨st, none, false⟩ := by
  have hd : doc.length ≠ 0 := by simpa [List.length_eq_zero] using hne
  have hcol : collectNewText doc st.lastProcessedSectionId = "" := by
    rw [hm]; exact collectNewText_last doc hne hnodup
  have hshort : (jsTrim (collectNewText doc st.lastProcessedSectionId).toList).length < 50 := by
    rw [hcol]; decide
  rw [runCycle_short st doc env hau hd hshort]
  have hrec : { st with lastProcessedSectionId := lastSectionId doc } = st := by
    obtain ⟨ev, ch, se, mk, cs⟩ := st
    simp only at hm
    rw [hm]
  rw [hrec]

theorem runCycle_settings (st : ScriptStorage) (doc : List (Int × String)) (env : CycleEnv) :
    (runCycle st doc env).persisted.settings = st.settings := by
  by_cases hau : st.settings.autoUpdate = true
  · rcases eq_or_ne doc [] with hnil | hne
    · subst hnil; rw [runCycle_nil]
    · have hd : doc.length ≠ 0 := by simpa [List.length_eq_zero] using hne
      by_cases hshort : (jsTrim (collectNewText doc st.lastProcessedSectionId).toList).length < 50
      · rw [runCycle_short st doc env hau hd hshort]
      · have hshort2 : ¬ (jsTrim (collectNewText doc st.lastProcessedSectionId).data).length < 50 :=
          hshort
        cases hoe : objEntries (extractEventsFromTextModel
            (collectNewText doc st.lastProcessedSectionId)
            st.settings.trackedKeywords env.extractResp).characters with
        | none => simp [runCycle, hau, hd, hshort, hshort2, hoe]
        | some entries =>
            simp only [runCycle, hau, Bool.not_true, Bool.false_eq_true, if_false, hd, hoe]
            rw [if_neg hshort]
            dsimp only
            rw [(compileMemory_preserves _ _ _ _ _).2]
            cases hsit : (extractEventsFromTextModel
                (collectNewText doc st.lastProcessedSectionId)
                st.settings.trackedKeywords env.extractResp).situation <;>
              simp [hsit] <;> split <;> rfl
  · have hau' : st.settings.autoUpdate = false := by simpa using hau
    rw [runCycle_autoUpdate_false st doc env hau']

theorem runCycle_completed_marker (st : ScriptStorage) (doc : List (Int × String))
    (env : CycleEnv) (hau : st.settings.autoUpdate = true) (hne : doc ≠ [])
    (hnc : (runCycle st doc env).crashed = false) :
    (runCycle st doc env).persisted.lastProcessedSectionId = lastSectionId doc := by
  have hd : doc.length ≠ 0 := by simpa [List.length_eq_zero] using hne
  by_cases hshort : (jsTrim (collectNewText doc st.lastProcessedSectionId).toList).length < 50
  · rw [runCycle_short st doc env hau hd hshort]
  · have hshort2 : ¬ (jsTrim (collectNewText doc st.lastProcessedSectionId).data).length < 50 :=
      hshort
    cases hoe : objEntries (extractEventsFromTextModel
        (collectNewText doc st.lastProcessedSectionId)
        st.settings.trackedKeywords env.extractResp).characters with
    | none =>
        exfalso
        have : (runCycle st doc env).crashed = true := by
          simp [runCycle, hau, hd, hshort, hshort2, hoe]
        rw [this] at hnc
        exact Bool.true_eq_false ▸ hnc
    | some entries =>
        simp only [runCycle, hau, Bool.not_true, Bool.false_eq_true, if_false, hd, hoe]
        rw [if_neg hshort]
        dsimp only
        rw [(compileMemory_preserves _ _ _ _ _).1]
        cases hsit : (extractEventsFromTextModel
            (collectNewText doc st.lastProcessedSectionId)
            st.settings.trackedKeywords env.extractResp).situation <;>
          simp [hsit] <;> split <;> rfl

theorem runCycle_marker_cases (st : ScriptStorage) (doc : List (Int × String))
    (env : CycleEnv) :
    (runCycle st doc env).persisted.lastProcessedSectionId = st.lastProcessedSectionId ∨
      ((runCycle st doc env).persisted.lastProcessedSectionId = lastSectionId doc ∧
        doc ≠ []) := by
  by_cases hau : st.settings.autoUpdate = true
  · rcases eq_or_ne doc [] with hnil | hne
    · subst hnil; left; rw [runCycle_nil]
    · cases hnc : (runCycle st doc env).crashed with
      | true =>
          -- the cycle aborted before any save: the persisted blob is unchanged
          left
          have hd : doc.length ≠ 0 := by simpa [List.length_eq_zero] using hne
          by_cases hshort :
              (jsTrim (collectNewText doc st.lastProcessedSectionId).toList).length < 50
          · rw [runCycle_short st doc env hau hd hshort] at hnc
            exact absurd hnc (by simp)
          · have hshort2 :
                ¬ (jsTrim (collectNewText doc st.lastProcessedSectionId).data).length < 50 :=
              hshort
            cases hoe : objEntries (extractEventsFromTextModel
                (collectNewText doc st.lastProcessedSectionId)
                st.settings.trackedKeywords env.extractResp).characters with
            | none => simp [runCycle, hau, hd, hshort, hshort2, hoe]
            | some entries =>
                exfalso
                have : (runCycle st doc env).crashed = false := by
                  simp only [runCycle, hau, Bool.not_true, Bool.false_eq_true, if_false, hd, hoe]
                  rw [if_neg hshort]
                rw [this] at hnc
                exact Bool.false_eq_true ▸ hnc
      | false => right; exact ⟨runCycle_completed_marker st doc env hau hne hnc, hne⟩
  · have hau' : st.settings.autoUpdate = false := by simpa using hau
    left; rw [runCycle_autoUpdate_false st doc env hau']

theorem runCycle_idempotent (st : ScriptStorage) (doc : List (Int × String))
    (env1 env2 : CycleEnv) (hnodup : (sectionIdsOf doc).Nodup)
    (hnc : (runCycle st doc env1).crashed = false) :
    runCycle (runCycle st doc env1).persisted doc env2 =
      ⟨(runCycle st doc env1).persisted, none, false⟩ := by
  by_cases hau : st.settings.autoUpdate = true
  · rcases eq_or_ne doc [] with hnil | hne
    · subst hnil
      rw [runCycle_nil, runCycle_nil]
    · have hau2 : (runCycle st doc env1).persisted.settings.autoUpdate = true := by
        rw [runCycle_settings]; exact hau
      exact runCycle_second_noop _ doc env2 hau2 hne
        (runCycle_completed_marker st doc env1 hau hne hnc) hnodup
  · have hau' : st.settings.autoUpdate = false := by simpa using hau
    rw [runCycle_autoUpdate_false st doc env1 hau']
    exact runCycle_autoUpdate_false st doc env2 hau'

theorem idxOfInt_lt_length (x : Int) : ∀ l : List Int, x ∈ l → idxOfInt x l < l.length := by
  intro l
  induction l with
  | nil => intro h; cases h
  | cons y ys ih =>
      intro h
      by_cases hy : y = x
      · simp [idxOfInt, hy]
      · rw [List.mem_cons] at h
        rcases h with h | h
        · exact absurd h.symm hy
        · simp only [idxOfInt, if_neg hy, List.length_cons]
          exact Nat.succ_lt_succ (ih h)

theorem idxOfInt_concat_self (x : Int) : ∀ l : List Int, x ∉ l →
    idxOfInt x (l ++ [x]) = l.length := by
  intro l
  induction l with
  | nil => intro _; simp [idxOfInt]
  | cons y ys ih =>
      intro h
      rw [List.mem_cons] at h
      push_neg at h
      show (if y = x then 0 else idxOfInt x (ys ++ [x]) + 1) = (y :: ys).length
      rw [if_neg (show ¬ y = x from fun e => h.1 e.symm), ih h.2]
      simp

theorem exists_append_singleton {α : Type} (l : List α) (h : l ≠ []) :
    ∃ l0 a, l = l0 ++ [a] := by
  induction l using List.reverseRecOn with
  | nil => exact absurd rfl h
  | append_singleton l0 a _ => exact ⟨l0, a, rfl⟩

/-- The monotonic half of the position-marker claim: under every oracle
and on every document with distinct section ids containing the current
marker, one cycle never moves the stored marker earlier in document
order. -/
theorem runCycle_marker_monotone (st : ScriptStorage) (doc : List (Int × String))
    (env : CycleEnv) (hnodup : (sectionIdsOf doc).Nodup)
    (hmem : ∀ i, st.lastProcessedSectionId = some i → i ∈ sectionIdsOf doc) :
    markerPos (sectionIdsOf doc) st.lastProcessedSectionId ≤
      markerPos (sectionIdsOf doc) (runCycle st doc env).persisted.lastProcessedSectionId := by
  rcases runCycle_marker_cases st doc env with h | ⟨h, hne⟩
  · rw [h]
  · rw [h]
    have hids : sectionIdsOf doc ≠ [] := by
      simpa [sectionIdsOf] using hne
    obtain ⟨ids0, x, hdecomp⟩ := exists_append_singleton _ hids
    rw [hdecomp]
    have hx : x ∉ ids0 := by
      rw [hdecomp, List.nodup_append] at hnodup
      exact fun hin => hnodup.2.2 hin (List.mem_singleton_self _)
    have hlast : lastSectionId doc = some x := by
      unfold lastSectionId
      rw [hdecomp]
      exact List.getLast?_concat _
    rw [hlast]
    simp only [markerPos, idxOfInt_concat_self x ids0 hx]
    rcases hst : st.lastProcessedSectionId with _ | i
    · simp [markerPos]
    · have hi : i ∈ ids0 ++ [x] := by rw [← hdecomp]; exact hmem i hst
      simp only [markerPos]
      have := idxOfInt_lt_length i (ids0 ++ [x]) hi
      simp only [List.length_append, List.length_cons, List.length_nil] at this
      omega

theorem defaultFacts_shape (v : JsonValue) :
    isJArr (defaultFacts v).events = true ∧
      isJStr (defaultFacts v).situation = true ∧
      typeofObject (defaultFacts v).characters = true := by
  cases v with
  | jobj fields =>
      refine ⟨?_, ?_, ?_⟩
      · rcases h : jGet fields "events" with - | w <;>
          simp only [defaultFacts, h] <;> first
            | rfl
            | (split <;> simp_all [isJArr])
      · rcases h : jGet fields "situation" with - | w <;>
          simp only [defaultFacts, h] <;> first
            | rfl
            | (split <;> simp_all [isJStr])
      · rcases h : jGet fields "characters" with - | w <;>
          simp only [defaultFacts, h] <;> first
            | rfl
            | (split <;> simp_all [typeofObject])
  | jnull => exact ⟨rfl, rfl, rfl⟩
  | jbool b => exact ⟨rfl, rfl, rfl⟩
  | jnum lit => exact ⟨rfl, rfl, rfl⟩
  | jstr s => exact ⟨rfl, rfl, rfl⟩
  | jarr xs => exact ⟨rfl, rfl, rfl⟩

/-- Every run of the extraction adapter returns either the empty fallback
or the defaulting of some parsed JSON value. -/
theorem extract_cases (text : String) (keywords : List String) (resp : GenOutcome) :
    extractEventsFromTextModel text keywords resp = emptyFacts ∨
      ∃ v, extractEventsFromTextModel text keywords resp = defaultFacts v := by
  cases resp with
  | err m => exact Or.inl rfl
  | noChoices => exact Or.inl rfl
  | ok content =>
      simp only [extractEventsFromTextModel]
      cases h1 : braceSpan content.toList with
      | none => exact Or.inl rfl
      | some span =>
          dsimp only
          cases h2 : jsonParseL span with
          | some v => exact Or.inr ⟨v, rfl⟩
          | none =>
              dsimp only
              cases h3 : jsonParseL (repairJson span) with
              | some w => exact Or.inr ⟨w, rfl⟩
              | none => exact Or.inl rfl

/-- The half of the defaulting claim that does hold: the extraction result
always has an array in `events`, a string in `situation`, a
`typeof === 'object'` value (object, array or `null`) in `characters`, and
every call-level failure yields entirely empty facts.  (What fails in the
claim is only the `null`/array case of `characters`.) -/
theorem extract_always_defaulted (text : String) (keywords : List String)
    (resp : GenOutcome) :
    isJArr (extractEventsFromTextModel text keywords resp).events = true ∧
      isJStr (extractEventsFromTextModel text keywords resp).situation = true ∧
      typeofObject (extractEventsFromTextModel text keywords resp).characters = true ∧
      ∀ m, extractEventsFromTextModel text keywords (.err m) = emptyFacts := by
  obtain h | ⟨v, h⟩ := extract_cases text keywords resp
  · rw [h]; exact ⟨rfl, rfl, rfl, fun m => rfl⟩
  · rw [h]
    exact ⟨(defaultFacts_shape v).1, (defaultFacts_shape v).2.1,
      (defaultFacts_shape v).2.2, fun m => rfl⟩
